import Mathlib

/-!
Verification development for the Steam game downloader web front-end
(`app.py`).  The Python source is shallowly embedded: strings are
`List Char`, machine integers are `Nat`/`Int`, rational arithmetic
(Python float division on exact inputs) is `ℚ`, subprocess and
filesystem effects are oracle parameters, and raised exceptions are
`Except`/`Option` results.
-/

/-- Python `pat in s` (substring test), scanning positions left to right
as CPython does. -/
def containsSub (pat : List Char) : List Char → Bool
  | [] => pat.isPrefixOf []
  | c :: cs => pat.isPrefixOf (c :: cs) || containsSub pat (cs)

/-- Value of a digit string, as Python `int(...)` computes on the digit
runs captured by the regexes. -/
def digitsToNat (ds : List Char) : Nat :=
  ds.foldl (fun n c => 10 * n + (c.toNat - 48)) 0

/-! ## `extract_game_id` (app.py lines 74-79)

```python
def extract_game_id(input_str):
    match = re.search(r'(?:app/|^)(\d+)', input_str)
    if match and match.group(1).isdigit():
        return match.group(1)
    raise ValueError("Invalid Game ID or URL")
```

`re.search` tries each start position from 0; `^` only matches at
position 0 (no MULTILINE).  Since `\d+` is followed by nothing, the
greedy run is maximal.  ASCII digits model `\d` on the class of inputs
considered. -/

/-- The `app/(\d+)` alternative attempted at one position. -/
def tryAppAt (l : List Char) : Option (List Char) :=
  if List.isPrefixOf ("app/".toList) l then
    match l.drop 4 with
    | [] => none
    | c :: cs => if c.isDigit then some (List.takeWhile Char.isDigit (c :: cs)) else none
  else none

/-- Scan positions 1..end of the string for the `app/(\d+)` alternative
(`^` cannot match there). -/
def searchApp : List Char → Option (List Char)
  | [] => none
  | c :: cs =>
    match tryAppAt (c :: cs) with
    | some r => some r
    | none => searchApp cs

/-- Full `re.search(r'(?:app/|^)(\d+)', s)`: at position 0 try `app/`
then `^`, beyond position 0 only `app/` can match. -/
def reSearchGameId (s : List Char) : Option (List Char) :=
  match tryAppAt s with
  | some r => some r
  | none =>
    match s with
    | [] => none
    | c :: cs =>
      if c.isDigit then some (List.takeWhile Char.isDigit (c :: cs))
      else searchApp cs

/-- Python `str.isdigit`: nonempty and all digits. -/
def pyIsdigit (s : List Char) : Bool :=
  !s.isEmpty && s.all Char.isDigit

/-- `extract_game_id`; `Except.error` is the raised
`ValueError("Invalid Game ID or URL")`. -/
def extract_game_id (input_str : List Char) : Except (List Char) (List Char) :=
  match reSearchGameId input_str with
  | some g => if pyIsdigit g then Except.ok g else Except.error ("Invalid Game ID or URL".toList)
  | none => Except.error ("Invalid Game ID or URL".toList)

/-! ## Progress-line parsing and the download worker (app.py lines 100-162)

The worker forwards every raw output line to the queue, parses lines
containing `progress:` with `re.search(r'progress: \d+\.\d+ \((\d+)/(\d+)\)', line)`,
computes elapsed/speed/remaining, and emits a structured sample.  Since
every `\d+` in the pattern is followed by a non-digit literal, greedy
maximal munch is equivalent to the backtracking semantics. -/

/-- Consume a literal, as one regex literal fragment. -/
def chompLit (pat l : List Char) : Option (List Char) :=
  if List.isPrefixOf pat l then some (l.drop pat.length) else none

/-- Consume `\d+` (greedy, at least one digit). -/
def chompDigits (l : List Char) : Option (List Char × List Char) :=
  let ds := List.takeWhile Char.isDigit l
  if ds.isEmpty then none else some (ds, l.drop ds.length)

/-- The pattern `progress: \d+\.\d+ \((\d+)/(\d+)\)` attempted at one
position; returns the two captured groups as numbers. -/
def matchProgressAt (l : List Char) : Option (Nat × Nat) := do
  let l ← chompLit ("progress: ".toList) l
  let (_, l) ← chompDigits l
  let l ← chompLit (".".toList) l
  let (_, l) ← chompDigits l
  let l ← chompLit (" (".toList) l
  let (a, l) ← chompDigits l
  let l ← chompLit ("/".toList) l
  let (b, l) ← chompDigits l
  let _ ← chompLit (")".toList) l
  pure (digitsToNat a, digitsToNat b)

/-- `re.search` of the progress pattern: first matching position wins. -/
def searchProgress : List Char → Option (Nat × Nat)
  | [] => matchProgressAt []
  | c :: cs =>
    match matchProgressAt (c :: cs) with
    | some r => some r
    | none => searchProgress cs

/-- `parseProgress line` is `re.search(r'progress: \d+\.\d+ \((\d+)/(\d+)\)', line)`
returning `(int(group(1)), int(group(2)))`. -/
def parseProgress (line : List Char) : Option (Nat × Nat) :=
  searchProgress line

/-- `speed = downloaded / elapsed if elapsed > 0 else 0` (line 142). -/
def speedOf (downloaded : Nat) (elapsed : ℚ) : ℚ :=
  if elapsed > 0 then (downloaded : ℚ) / elapsed else 0

/-- `remaining = (total_size - downloaded) / speed if speed > 0 else 0` (line 143). -/
def remainingOf (total_size downloaded : Nat) (speed : ℚ) : ℚ :=
  if speed > 0 then ((total_size : ℚ) - (downloaded : ℚ)) / speed else 0

/-- The `progress` dict built on lines 145-151.  Note that
`percentage = (downloaded / total_size) * 100` is an unguarded division. -/
structure ProgressSample where
  percentage : ℚ
  downloaded : Nat
  total : Nat
  elapsed : ℚ
  remaining : ℚ
deriving DecidableEq, Repr

/-- Build the progress sample from the captured groups and the elapsed
time of this loop iteration. -/
def mkSample (downloaded total_size : Nat) (elapsed : ℚ) : ProgressSample :=
  let speed := speedOf downloaded elapsed
  { percentage := ((downloaded : ℚ) / (total_size : ℚ)) * 100
    downloaded := downloaded
    total := total_size
    elapsed := elapsed
    remaining := remainingOf total_size downloaded speed }

/-- Items the worker puts on `progress_queue`: raw output lines, progress
dicts, and the two terminal signal shapes (`Msg.error e` is the string
`"error: " ++ e`). -/
inductive Msg where
  | line (s : List Char)
  | sample (p : ProgressSample)
  | complete
  | error (s : List Char)
deriving DecidableEq, Repr

/-- A message is one of the two terminal signal shapes. -/
def isTerminalMsg : Msg → Bool
  | Msg.complete => true
  | Msg.error _ => true
  | _ => false

/-- A message is a structured progress sample. -/
def isSampleMsg : Msg → Bool
  | Msg.sample _ => true
  | _ => false

/-- One line read from the child process, tagged with the value of
`time.time() - start_time` at that iteration. -/
structure TimedLine where
  elapsed : ℚ
  text : List Char

/-- Processing of one output line (loop body, lines 130-152): the raw
line is always put first; if the line contains `progress:` and the regex
matches with `total_size = 0`, the percentage division raises
`ZeroDivisionError("division by zero")` after the raw put and before the
sample put; otherwise a sample may follow.  Returns the messages put and
the exception message if one was raised. -/
def lineStep (tl : TimedLine) : List Msg × Option (List Char) :=
  if containsSub ("progress:".toList) tl.text then
    match parseProgress tl.text with
    | some (d, t) =>
      if t = 0 then ([Msg.line tl.text], some ("division by zero".toList))
      else ([Msg.line tl.text, Msg.sample (mkSample d t tl.elapsed)], none)
    | none => ([Msg.line tl.text], none)
  else ([Msg.line tl.text], none)

/-- Run the read loop over the child's output lines; an exception aborts
the loop, leaving the remaining lines unprocessed. -/
def runLines : List TimedLine → List Msg × Option (List Char)
  | [] => ([], none)
  | tl :: rest =>
    match (lineStep tl).2 with
    | some e => ((lineStep tl).1, some e)
    | none => ((lineStep tl).1 ++ (runLines rest).1, (runLines rest).2)

/-- POSIX `os.path.join` of two components. -/
def pjoin (a b : List Char) : List Char :=
  if b.head? = some '/' then b
  else if a.isEmpty then b
  else if a.getLast? = some '/' then a ++ b
  else a ++ '/' :: b

/-- `os.path.join(os.getcwd(), "downloads", game_id)` (line 104). -/
def downloadDir (cwd game_id : List Char) : List Char :=
  pjoin (pjoin cwd ("downloads".toList)) game_id

/-- The SteamCMD command line built on lines 103-113; `exe` is the
platform-dependent `STEAMCMD_EXE` path. -/
def workerCmd (exe cwd game_id username password : List Char) (anonymous : Bool) :
    List (List Char) :=
  [exe]
    ++ (if anonymous then ["+login".toList, "anonymous".toList]
        else ["+login".toList, username, password])
    ++ ["+force_install_dir".toList, downloadDir cwd game_id,
        "+app_update".toList, game_id, "validate".toList, "+quit".toList]

/-- Observable behaviour of the spawned child process: its output lines
(with per-iteration elapsed times) and its exit code. -/
structure ProcBehavior where
  lines : List TimedLine
  exitCode : Int

/-- `download_worker` (lines 100-162) as the sequence of messages put on
`progress_queue`.  `proc` is the oracle mapping a command line to the
child-process behaviour; `pre` is an exception raised before the read
loop (`os.makedirs` or `subprocess.Popen` failing), whose message `e`
becomes the terminal `error: e` put by the `except` clause. -/
def download_worker (pre : Option (List Char))
    (proc : List (List Char) → ProcBehavior)
    (exe cwd game_id username password : List Char) (anonymous : Bool) : List Msg :=
  match pre with
  | some e => [Msg.error e]
  | none =>
    let b := proc (workerCmd exe cwd game_id username password anonymous)
    match (runLines b.lines).2 with
    | some e => (runLines b.lines).1 ++ [Msg.error e]
    | none =>
      if b.exitCode ≠ 0 then (runLines b.lines).1 ++ [Msg.error ("Download failed".toList)]
      else (runLines b.lines).1 ++ [Msg.complete]

/-! ## `validate_credentials` (app.py lines 81-98) -/

/-- Outcome of `subprocess.run`: captured streams, or a raised exception
(`TimeoutExpired` after 30s, `FileNotFoundError`, ...). -/
inductive SubprocResult where
  | ok (stdout stderr : List Char)
  | exc (msg : List Char)

/-- The command built on line 84. -/
def validateCmd (exe username password : List Char) : List (List Char) :=
  [exe, "+login".toList, username, password, "+quit".toList]

/-- `validate_credentials`: runs the login command, returns `false` when
`"FAILED" in result.stderr`, `true` otherwise, and `false` when any
exception is raised.  `runner` is the oracle mapping the command line to
the subprocess outcome. -/
def validate_credentials (runner : List (List Char) → SubprocResult)
    (exe username password : List Char) : Bool :=
  match runner (validateCmd exe username password) with
  | SubprocResult.ok _ stderr =>
    if containsSub ("FAILED".toList) stderr then false else true
  | SubprocResult.exc _ => false

/-! ## The FastAPI file routes (app.py lines 172-203) -/

/-- Filesystem oracle: existence and regular-file tests plus `os.walk`
(triples of root, subdirectory names, file names). -/
structure FS where
  pathOnDisk : List Char → Bool
  isFile : List Char → Bool
  walk : List Char → List (List Char × List (List Char) × List (List Char))

/-- Responses the two routes produce: a `FileResponse` streaming the
bytes of the file at a path, the fallback dict body, or an
`HTMLResponse`. -/
inductive HttpResp where
  | fileResp (path : List Char)
  | jsonErr (msg : List Char)
  | htmlResp (body : List Char)
deriving DecidableEq

/-- `os.path.join` folded over several components. -/
def pjoinList (parts : List (List Char)) : List Char :=
  match parts with
  | [] => []
  | p :: ps => ps.foldl pjoin p

/-- `GET /file/downloads/{game_id}/{file_path:path}` (lines 174-179):
serve the joined path if it exists and is a regular file, else the
`File not found` body.  No sanitization of `file_path` is performed. -/
def serve_file (fs : FS) (cwd game_id file_path : List Char) : HttpResp :=
  if fs.pathOnDisk (pjoinList [cwd, "downloads".toList, game_id, file_path])
      && fs.isFile (pjoinList [cwd, "downloads".toList, game_id, file_path]) then
    HttpResp.fileResp (pjoinList [cwd, "downloads".toList, game_id, file_path])
  else
    HttpResp.jsonErr ("File not found".toList)

/-- `os.path.relpath(root, base)` for the paths `os.walk` yields under
`base`: `"."` for `base` itself, otherwise the suffix after `base ++ "/"`. -/
def relpath (root base : List Char) : List Char :=
  if root = base then ".".toList
  else if List.isPrefixOf (base ++ ['/']) root then root.drop (base.length + 1)
  else root

/-- Single quote character (HTML attribute quote used on line 200). -/
def squote : Char := Char.ofNat 39

/-- One `<li>` entry of the listing page (line 200). -/
def liFor (game_id file : List Char) : List Char :=
  "<li><a href=".toList ++ [squote] ++ "/file/downloads/".toList ++ game_id ++ ['/']
    ++ file ++ [squote, '>'] ++ file ++ "</a></li>".toList

/-- Fixed page prefix ending in the opening `<ul>` (line 197). -/
def listingHeader : List Char :=
  "<html><head><title>Files</title></head><body><h1>Downloaded Files</h1><ul>".toList

/-- Fixed page suffix starting with the closing `</ul>` (line 201). -/
def listingFooter : List Char := "</ul></body></html>".toList

/-- The relative file paths collected by the `os.walk` loop
(lines 188-195). -/
def walkFiles (fs : FS) (download_path : List Char) : List (List Char) :=
  (fs.walk download_path).flatMap (fun t =>
    let rel0 := relpath t.1 download_path
    let rel := if rel0 = ".".toList then [] else rel0
    t.2.2.map (fun filename => pjoin rel filename))

/-- `GET /file/downloads/{game_id}` (lines 181-203): `Directory not
found` for a missing directory, else the generated listing page. -/
def list_files (fs : FS) (cwd game_id : List Char) : HttpResp :=
  if !fs.pathOnDisk (pjoinList [cwd, "downloads".toList, game_id]) then
    HttpResp.htmlResp ("Directory not found".toList)
  else
    HttpResp.htmlResp
      (listingHeader
        ++ (walkFiles fs (pjoinList [cwd, "downloads".toList, game_id])).flatMap
            (fun file => liFor game_id file)
        ++ listingFooter)

/-! ## `handle_download` (app.py lines 253-306)

The handler's observable control flow: extract the game id (a raised
`ValueError` reaches the outer `except` and is displayed), check for
empty credentials when not anonymous (`gr.Error`, likewise displayed),
run `validate_credentials` when not anonymous, then start the worker
thread.  `credOk` is the oracle for the credential-validation result. -/

/-- Externally visible actions of `handle_download`, in order. -/
inductive HAction where
  | validateCreds
  | startWorker
  | raiseError (msg : List Char)
deriving DecidableEq

/-- The sequence of actions `handle_download` performs.  Empty strings
are falsy in Python, so `not username or not password` is
`username = [] ∨ password = []`. -/
def handle_download_trace (username password : List Char) (anonymous : Bool)
    (game_input : List Char) (credOk : Bool) : List HAction :=
  match extract_game_id game_input with
  | Except.error e => [HAction.raiseError e]
  | Except.ok _ =>
    if !anonymous && (username.isEmpty || password.isEmpty) then
      [HAction.raiseError ("Username and password required when not using anonymous login".toList)]
    else if !anonymous then
      HAction.validateCreds ::
        (if credOk then [HAction.startWorker]
         else [HAction.raiseError ("Invalid Steam credentials".toList)])
    else [HAction.startWorker]

/-! ## Supporting lemmas -/

/-- `isPrefixOf` agrees with the existential prefix decomposition. -/
theorem isPrefixOf_iff_ex (p l : List Char) :
    p.isPrefixOf l = true ↔ ∃ t, l = p ++ t := by
  induction p generalizing l with
  | nil =>
    simp [List.isPrefixOf]
  | cons a as ih =>
    cases l with
    | nil =>
      simp [List.isPrefixOf]
    | cons b bs =>
      simp only [List.isPrefixOf, Bool.and_eq_true, beq_iff_eq, ih, List.cons_append,
        List.cons.injEq]
      constructor
      · rintro ⟨rfl, t, rfl⟩; exact ⟨t, rfl, rfl⟩
      · rintro ⟨t, rfl, rfl⟩; exact ⟨rfl, t, rfl⟩

/-- The substring scan agrees with the existential infix decomposition. -/
theorem containsSub_iff_ex (pat s : List Char) :
    containsSub pat s = true ↔ ∃ l r, s = l ++ pat ++ r := by
  induction s with
  | nil =>
    simp only [containsSub, isPrefixOf_iff_ex]
    constructor
    · rintro ⟨t, ht⟩
      exact ⟨[], t, by simpa using ht⟩
    · rintro ⟨l, r, h⟩
      have hl : l = [] := by
        cases l with
        | nil => rfl
        | cons x xs => simp at h
      subst hl
      exact ⟨r, by simpa using h⟩
  | cons c cs ih =>
    simp only [containsSub, Bool.or_eq_true, isPrefixOf_iff_ex, ih]
    constructor
    · rintro (⟨t, ht⟩ | ⟨l, r, rfl⟩)
      · exact ⟨[], t, by simpa using ht⟩
      · exact ⟨c :: l, r, rfl⟩
    · rintro ⟨l, r, h⟩
      cases l with
      | nil => exact Or.inl ⟨r, by simpa using h⟩
      | cons x xs =>
        simp only [List.cons_append, List.cons.injEq] at h
        exact Or.inr ⟨xs, r, h.2⟩

/-- A digit cannot start the literal `app/`. -/
theorem tryAppAt_cons_digit (c : Char) (cs : List Char) (h : c.isDigit = true) :
    tryAppAt (c :: cs) = none := by
  have hca : ('a' == c) = false := by
    refine beq_eq_false_iff_ne.mpr ?_
    intro he
    rw [← he] at h
    exact absurd h (by decide)
  unfold tryAppAt
  have hpre : List.isPrefixOf ("app/".toList) (c :: cs) = false := by
    show List.isPrefixOf ('a' :: "pp/".toList) (c :: cs) = false
    simp only [List.isPrefixOf, hca, Bool.false_and]
  rw [hpre]
  simp

/-- The `app/` alternative cannot match inside a digit-free string. -/
theorem tryAppAt_no_digit (l : List Char) (h : ∀ c ∈ l, c.isDigit = false) :
    tryAppAt l = none := by
  unfold tryAppAt
  split
  · rename_i hp
    split
    · rfl
    · rename_i c cs hdrop
      have hc : c ∈ l := by
        have : c ∈ l.drop 4 := by rw [hdrop]; exact List.mem_cons_self c cs
        exact List.drop_subset 4 l this
      simp [h c hc]
  · rfl

/-- The position scan finds nothing in a digit-free string. -/
theorem searchApp_no_digit (l : List Char) (h : ∀ c ∈ l, c.isDigit = false) :
    searchApp l = none := by
  induction l with
  | nil => rfl
  | cons c cs ih =>
    unfold searchApp
    rw [tryAppAt_no_digit (c :: cs) h]
    exact ih (fun x hx => h x (List.mem_cons_of_mem c hx))

/-- The whole regex finds nothing in a digit-free string. -/
theorem reSearchGameId_no_digit (s : List Char) (h : ∀ c ∈ s, c.isDigit = false) :
    reSearchGameId s = none := by
  cases s with
  | nil => rfl
  | cons c cs =>
    unfold reSearchGameId
    rw [tryAppAt_no_digit (c :: cs) h]
    show (if c.isDigit = true then some (List.takeWhile Char.isDigit (c :: cs))
          else searchApp cs) = none
    rw [h c (List.mem_cons_self c cs)]
    simp only [Bool.false_eq_true, if_false]
    exact searchApp_no_digit cs (fun x hx => h x (List.mem_cons_of_mem c hx))

/-- A maximal digit run taken from a digit head is a nonempty all-digit
string, so Python `isdigit` accepts it. -/
theorem pyIsdigit_takeWhile (c : Char) (cs : List Char) (h : c.isDigit = true) :
    pyIsdigit (List.takeWhile Char.isDigit (c :: cs)) = true := by
  rw [List.takeWhile_cons_of_pos h]
  simp only [pyIsdigit, List.isEmpty_cons, Bool.not_false, Bool.true_and, List.all_eq_true]
  intro x hx
  rcases List.mem_cons.mp hx with hx | hx
  · rw [hx]; exact h
  · exact List.mem_takeWhile_imp hx

/-- A successful `app/` alternative exposes its shape: the position
starts with the literal `app/` followed by a digit. -/
theorem tryAppAt_some_shape (u r : List Char) (h : tryAppAt u = some r) :
    ∃ (c : Char) (rest : List Char), u = "app/".toList ++ c :: rest ∧ c.isDigit = true := by
  unfold tryAppAt at h
  by_cases hp : List.isPrefixOf ("app/".toList) u = true
  · rw [if_pos hp] at h
    rcases (isPrefixOf_iff_ex ("app/".toList) u).mp hp with ⟨t, rfl⟩
    have hd : ("app/".toList ++ t).drop 4 = t := rfl
    rw [hd] at h
    cases t with
    | nil => exact Option.noConfusion h
    | cons c cs =>
      have h2 : (if c.isDigit = true then some (List.takeWhile Char.isDigit (c :: cs))
          else (none : Option (List Char))) = some r := h
      by_cases hc : c.isDigit = true
      · exact ⟨c, cs, rfl, hc⟩
      · rw [if_neg hc] at h2
        exact Option.noConfusion h2
  · rw [if_neg hp] at h
    exact Option.noConfusion h

/-- A successful position scan exposes its shape: the string decomposes
around an occurrence of `app/` followed by a digit. -/
theorem searchApp_some_shape (t r : List Char) (h : searchApp t = some r) :
    ∃ (l : List Char) (c : Char) (rest : List Char),
      t = l ++ "app/".toList ++ c :: rest ∧ c.isDigit = true := by
  induction t with
  | nil => exact Option.noConfusion h
  | cons u us ih =>
    unfold searchApp at h
    cases ha : tryAppAt (u :: us) with
    | some r0 =>
      rcases tryAppAt_some_shape (u :: us) r0 ha with ⟨c, rest, heq, hc⟩
      exact ⟨[], c, rest, heq, hc⟩
    | none =>
      rw [ha] at h
      rcases ih h with ⟨l, c, rest, heq, hc⟩
      refine ⟨u :: l, c, rest, ?_, hc⟩
      rw [heq]
      rfl

/-- A successful regex search exposes its shape: the input starts with a
digit, or decomposes around an occurrence of `app/` followed by a digit.
This is the converse direction behind the "only at position 0 or after
`app/`" behaviour of `(?:app/|^)(\d+)`. -/
theorem reSearchGameId_some_shape (s g : List Char) (h : reSearchGameId s = some g) :
    (∃ (c : Char) (cs : List Char), s = c :: cs ∧ c.isDigit = true)
    ∨ (∃ (l : List Char) (c : Char) (rest : List Char),
        s = l ++ "app/".toList ++ c :: rest ∧ c.isDigit = true) := by
  unfold reSearchGameId at h
  cases ha : tryAppAt s with
  | some r =>
    rcases tryAppAt_some_shape s r ha with ⟨c, rest, heq, hc⟩
    exact Or.inr ⟨[], c, rest, heq, hc⟩
  | none =>
    rw [ha] at h
    cases s with
    | nil => exact Option.noConfusion h
    | cons c cs =>
      by_cases hc : c.isDigit = true
      · exact Or.inl ⟨c, cs, rfl, hc⟩
      · have h2 : (if c.isDigit = true then some (List.takeWhile Char.isDigit (c :: cs))
            else searchApp cs) = some g := h
        rw [if_neg hc] at h2
        rcases searchApp_some_shape cs g h2 with ⟨l, c1, rest, heq, hc1⟩
        refine Or.inr ⟨c :: l, c1, rest, ?_, hc1⟩
        rw [heq]
        rfl

/-! ## Claim C1 -/

/-- C1 counterexample: `"abc123"` contains the digit run `123`, yet
`extract_game_id` raises `ValueError`, because the regex
`(?:app/|^)(\d+)` only accepts digits at the very start of the string or
directly after `app/`. -/
theorem extract_game_id_digit_run_counterexample :
    ("abc123".toList).any Char.isDigit = true
    ∧ extract_game_id ("abc123".toList)
        = Except.error ("Invalid Game ID or URL".toList) := by
  exact ⟨by decide, by rfl⟩

/-- C1 (amended): extraction succeeds only on a leading digit run or on
a digit run directly after an `app/` occurrence.  A string starting with
a digit yields its maximal leading digit run; every string whose head is
not a digit and in which no `app/` occurrence is directly followed by a
digit raises the invalid-id error (in particular every digit-free
string); any successful result is a nonempty digit string; and `"570"`
and the store URL both yield `"570"`. -/
theorem extract_game_id_spec :
    (∀ (c : Char) (cs : List Char), c.isDigit = true →
      extract_game_id (c :: cs) = Except.ok (List.takeWhile Char.isDigit (c :: cs)))
    ∧ (∀ s : List Char,
      (∀ (c : Char) (cs : List Char), s = c :: cs → c.isDigit = false) →
      (∀ (l : List Char) (c : Char) (r : List Char),
        s = l ++ "app/".toList ++ c :: r → c.isDigit = false) →
      extract_game_id s = Except.error ("Invalid Game ID or URL".toList))
    ∧ (∀ s : List Char, (∀ c ∈ s, c.isDigit = false) →
      extract_game_id s = Except.error ("Invalid Game ID or URL".toList))
    ∧ (∀ s g, extract_game_id s = Except.ok g → pyIsdigit g = true)
    ∧ extract_game_id ("570".toList) = Except.ok ("570".toList)
    ∧ extract_game_id ("https://store.steampowered.com/app/570/".toList)
        = Except.ok ("570".toList) := by
  refine ⟨?_, ?_, ?_, ?_, by rfl, by rfl⟩
  · intro c cs h
    have hr : reSearchGameId (c :: cs) = some (List.takeWhile Char.isDigit (c :: cs)) := by
      unfold reSearchGameId
      rw [tryAppAt_cons_digit c cs h]
      show (if c.isDigit = true then some (List.takeWhile Char.isDigit (c :: cs))
            else searchApp cs) = _
      rw [h]
      simp
    unfold extract_game_id
    rw [hr]
    show (if pyIsdigit (List.takeWhile Char.isDigit (c :: cs)) = true
          then Except.ok (List.takeWhile Char.isDigit (c :: cs))
          else Except.error ("Invalid Game ID or URL".toList))
        = Except.ok (List.takeWhile Char.isDigit (c :: cs))
    rw [pyIsdigit_takeWhile c cs h]
    simp
  · intro s h1 h2
    have hr : reSearchGameId s = none := by
      cases hres : reSearchGameId s with
      | none => rfl
      | some g =>
        rcases reSearchGameId_some_shape s g hres with ⟨c, cs, heq, hc⟩
          | ⟨l, c, rest, heq, hc⟩
        · exact absurd hc (by simp [h1 c cs heq])
        · exact absurd hc (by simp [h2 l c rest heq])
    unfold extract_game_id
    rw [hr]
  · intro s h
    unfold extract_game_id
    rw [reSearchGameId_no_digit s h]
  · intro s g h
    unfold extract_game_id at h
    cases hr : reSearchGameId s with
    | none => rw [hr] at h; cases h
    | some g0 =>
      rw [hr] at h
      have h2 : (if pyIsdigit g0 = true then Except.ok g0
          else (Except.error ("Invalid Game ID or URL".toList) : Except (List Char) (List Char)))
          = Except.ok g := h
      by_cases hd : pyIsdigit g0 = true
      · rw [if_pos hd] at h2
        cases h2
        exact hd
      · rw [if_neg hd] at h2
        cases h2

/-- C1 witness: the amended theorem applied at `'5' :: "70"`, at
`"abc123"` (digits present but neither leading nor after `app/`) through
the general only-when conjunct, and at the digit-free `"abc"`. -/
theorem extract_game_id_spec_witness :
    extract_game_id ('5' :: "70".toList)
      = Except.ok (List.takeWhile Char.isDigit ('5' :: "70".toList))
    ∧ extract_game_id ("abc123".toList) = Except.error ("Invalid Game ID or URL".toList)
    ∧ extract_game_id ("abc".toList) = Except.error ("Invalid Game ID or URL".toList) :=
  ⟨extract_game_id_spec.1 '5' ("70".toList) (by decide),
   extract_game_id_spec.2.1 ("abc123".toList)
     (by
       intro c cs h
       cases h
       decide)
     (by
       intro l c r h
       exact absurd
         ((containsSub_iff_ex ("app/".toList) ("abc123".toList)).mpr ⟨l, c :: r, h⟩)
         (by decide)),
   extract_game_id_spec.2.2.1 ("abc".toList) (by decide)⟩

/-! ## Claim C2 -/

/-- Messages emitted by one loop iteration are raw lines or samples,
never terminal signals. -/
theorem lineStep_not_terminal (tl : TimedLine) :
    ((lineStep tl).1).filter isTerminalMsg = [] := by
  unfold lineStep
  split
  · split
    · split
      · simp [isTerminalMsg]
      · simp [isTerminalMsg]
    · simp [isTerminalMsg]
  · simp [isTerminalMsg]

/-- Messages emitted by the whole read loop are never terminal signals. -/
theorem runLines_not_terminal (ls : List TimedLine) :
    ((runLines ls).1).filter isTerminalMsg = [] := by
  induction ls with
  | nil => rfl
  | cons tl rest ih =>
    unfold runLines
    cases h : (lineStep tl).2 with
    | some e =>
      show ((lineStep tl).1).filter isTerminalMsg = []
      exact lineStep_not_terminal tl
    | none =>
      show ((lineStep tl).1 ++ (runLines rest).1).filter isTerminalMsg = []
      rw [List.filter_append, lineStep_not_terminal tl, ih]
      rfl

/-- C2: every worker run puts exactly one terminal signal on the queue:
`complete` on zero exit code, `error: Download failed` on non-zero exit,
and `error: <message>` when an exception is raised before or during the
read loop; never both `complete` and an error, and never neither. -/
theorem download_worker_terminal_exclusive
    (pre : Option (List Char)) (proc : List (List Char) → ProcBehavior)
    (exe cwd game_id username password : List Char) (anonymous : Bool) :
    (download_worker pre proc exe cwd game_id username password anonymous).countP
        isTerminalMsg = 1
    ∧ (∀ e, pre = some e →
        (download_worker pre proc exe cwd game_id username password anonymous).filter
            isTerminalMsg = [Msg.error e])
    ∧ (pre = none →
        (runLines (proc (workerCmd exe cwd game_id username password anonymous)).lines).2
            = none →
        (download_worker pre proc exe cwd game_id username password anonymous).filter
            isTerminalMsg
          = [if (proc (workerCmd exe cwd game_id username password anonymous)).exitCode = 0
             then Msg.complete else Msg.error ("Download failed".toList)])
    ∧ (∀ e, pre = none →
        (runLines (proc (workerCmd exe cwd game_id username password anonymous)).lines).2
            = some e →
        (download_worker pre proc exe cwd game_id username password anonymous).filter
            isTerminalMsg = [Msg.error e]) := by
  have hfilter :
      (download_worker pre proc exe cwd game_id username password anonymous).filter
          isTerminalMsg
        = (match pre with
           | some e => [Msg.error e]
           | none =>
             match (runLines (proc (workerCmd exe cwd game_id username password
                 anonymous)).lines).2 with
             | some e => [Msg.error e]
             | none =>
               if (proc (workerCmd exe cwd game_id username password anonymous)).exitCode
                   ≠ 0
               then [Msg.error ("Download failed".toList)]
               else [Msg.complete]) := by
    cases pre with
    | some e => simp [download_worker, isTerminalMsg]
    | none =>
      unfold download_worker
      cases h : (runLines (proc (workerCmd exe cwd game_id username password
          anonymous)).lines).2 with
      | some e =>
        simp only [h, List.filter_append,
          runLines_not_terminal
            (proc (workerCmd exe cwd game_id username password anonymous)).lines]
        simp [isTerminalMsg]
      | none =>
        simp only [h]
        by_cases hc :
            (proc (workerCmd exe cwd game_id username password anonymous)).exitCode = 0
        · simp only [hc, ne_eq, not_true_eq_false, if_false, List.filter_append,
            runLines_not_terminal
              (proc (workerCmd exe cwd game_id username password anonymous)).lines]
          simp [isTerminalMsg]
        · simp only [hc, ne_eq, not_false_eq_true, if_true, List.filter_append,
            runLines_not_terminal
              (proc (workerCmd exe cwd game_id username password anonymous)).lines]
          simp [isTerminalMsg, hc]
  refine ⟨?_, ?_, ?_, ?_⟩
  · rw [List.countP_eq_length_filter, hfilter]
    cases pre with
    | some e => rfl
    | none =>
      cases h : (runLines (proc (workerCmd exe cwd game_id username password
          anonymous)).lines).2 with
      | some e => rfl
      | none =>
        by_cases hc :
            (proc (workerCmd exe cwd game_id username password anonymous)).exitCode = 0
          <;> simp [hc]
  · intro e he
    rw [hfilter, he]
  · intro hp hr
    rw [hfilter, hp]
    show (match (runLines (proc (workerCmd exe cwd game_id username password
        anonymous)).lines).2 with
      | some e => [Msg.error e]
      | none =>
        if (proc (workerCmd exe cwd game_id username password anonymous)).exitCode ≠ 0
        then [Msg.error ("Download failed".toList)]
        else [Msg.complete]) = _
    rw [hr]
    by_cases hc :
        (proc (workerCmd exe cwd game_id username password anonymous)).exitCode = 0
      <;> simp [hc]
  · intro e hp hr
    rw [hfilter, hp]
    show (match (runLines (proc (workerCmd exe cwd game_id username password
        anonymous)).lines).2 with
      | some e => [Msg.error e]
      | none =>
        if (proc (workerCmd exe cwd game_id username password anonymous)).exitCode ≠ 0
        then [Msg.error ("Download failed".toList)]
        else [Msg.complete]) = _
    rw [hr]

/-- C2 witness: a run with no output lines and exit code 0 has the single
terminal signal `complete`. -/
theorem download_worker_terminal_exclusive_witness :
    (download_worker none (fun _ => ⟨[], 0⟩) [] [] [] [] [] true).filter isTerminalMsg
      = [Msg.complete] :=
  (download_worker_terminal_exclusive none (fun _ => ⟨[], 0⟩) [] [] [] [] [] true).2.2.1
    rfl rfl

/-! ## Claim C3 -/

/-- A successful progress match at one position starts with the literal
`progress: `. -/
theorem matchProgressAt_isSome_pre (l : List Char) (r : Nat × Nat)
    (h : matchProgressAt l = some r) :
    List.isPrefixOf ("progress: ".toList) l = true := by
  by_cases hp : List.isPrefixOf ("progress: ".toList) l = true
  · exact hp
  · exfalso
    have hc : chompLit ("progress: ".toList) l = none := by
      unfold chompLit
      rw [if_neg hp]
    unfold matchProgressAt at h
    rw [hc] at h
    cases h

/-- A line on which the progress regex matches contains the substring
`progress:`, so the worker's `"progress:" in line` guard passes. -/
theorem parseProgress_contains (l : List Char) (r : Nat × Nat)
    (h : parseProgress l = some r) :
    containsSub ("progress:".toList) l = true := by
  unfold parseProgress at h
  induction l with
  | nil =>
    have : matchProgressAt [] = none := by rfl
    rw [show searchProgress [] = matchProgressAt [] from rfl, this] at h
    cases h
  | cons c cs ih =>
    unfold searchProgress at h
    cases hm : matchProgressAt (c :: cs) with
    | some r0 =>
      have hpre := matchProgressAt_isSome_pre (c :: cs) r0 hm
      have hpre9 : List.isPrefixOf ("progress:".toList) (c :: cs) = true := by
        rcases (isPrefixOf_iff_ex ("progress: ".toList) (c :: cs)).mp hpre with ⟨t, ht⟩
        refine (isPrefixOf_iff_ex ("progress:".toList) (c :: cs)).mpr ⟨' ' :: t, ?_⟩
        rw [ht]
        rfl
      unfold containsSub
      rw [hpre9]
      rfl
    | none =>
      rw [hm] at h
      have := ih h
      unfold containsSub
      rw [this]
      simp

/-- A matching line with nonzero total makes the loop body put the raw
line followed by the structured sample, raising nothing. -/
theorem lineStep_sample (tl : TimedLine) (d t : Nat)
    (hp : parseProgress tl.text = some (d, t)) (ht : t ≠ 0) :
    lineStep tl = ([Msg.line tl.text, Msg.sample (mkSample d t tl.elapsed)], none) := by
  have hc := parseProgress_contains tl.text (d, t) hp
  unfold lineStep
  rw [hc, hp]
  simp [ht]

/-- C3 counterexample: the line `progress: 0.0 (0/0)` matches the
progress pattern, yet the worker run that reads it emits no structured
progress sample at all (the percentage division raises first). -/
theorem progress_sample_zero_total_counterexample :
    parseProgress ("progress: 0.0 (0/0)".toList) = some (0, 0)
    ∧ (download_worker none (fun _ => ⟨[⟨1, "progress: 0.0 (0/0)".toList⟩], 0⟩)
          [] [] ("570".toList) [] [] true).all (fun m => !isSampleMsg m) = true := by
  exact ⟨by rfl, by rfl⟩

/-- C3 (amended): for every line matching the progress pattern with a
nonzero total, the worker emits the raw line followed by a structured
sample whose `downloaded` is the first captured integer, whose `total`
is the second, and whose `percentage` equals `100 * downloaded / total`;
a one-line run with exit code 0 puts exactly the raw line, the sample
and `complete`. -/
theorem progress_sample_spec (elapsed : ℚ) (l : List Char) (d t : Nat)
    (hp : parseProgress l = some (d, t)) (ht : t ≠ 0) :
    lineStep ⟨elapsed, l⟩ = ([Msg.line l, Msg.sample (mkSample d t elapsed)], none)
    ∧ (mkSample d t elapsed).downloaded = d
    ∧ (mkSample d t elapsed).total = t
    ∧ (mkSample d t elapsed).percentage = 100 * (d : ℚ) / (t : ℚ)
    ∧ ∀ (exe cwd gid u pw : List Char) (anon : Bool),
        download_worker none (fun _ => ⟨[⟨elapsed, l⟩], 0⟩) exe cwd gid u pw anon
          = [Msg.line l, Msg.sample (mkSample d t elapsed), Msg.complete] := by
  have h1 : lineStep ⟨elapsed, l⟩
      = ([Msg.line l, Msg.sample (mkSample d t elapsed)], none) :=
    lineStep_sample ⟨elapsed, l⟩ d t hp ht
  have h2 : runLines [⟨elapsed, l⟩]
      = ([Msg.line l, Msg.sample (mkSample d t elapsed)], none) := by
    unfold runLines
    rw [h1]
    simp [runLines]
  refine ⟨h1, rfl, rfl, ?_, ?_⟩
  · show ((d : ℚ) / (t : ℚ)) * 100 = 100 * (d : ℚ) / (t : ℚ)
    ring
  · intro exe cwd gid u pw anon
    simp only [download_worker]
    rw [h2]
    simp

/-- C3 witness: the amended theorem at the spec's example line
`progress: 12.5 (500/4000)`; the sample has `downloaded = 500`,
`total = 4000` and `percentage = 12.5`. -/
theorem progress_sample_spec_witness :
    lineStep ⟨1, "progress: 12.5 (500/4000)".toList⟩
      = ([Msg.line ("progress: 12.5 (500/4000)".toList),
          Msg.sample (mkSample 500 4000 1)], none)
    ∧ (mkSample 500 4000 1).downloaded = 500
    ∧ (mkSample 500 4000 1).total = 4000
    ∧ (mkSample 500 4000 1).percentage = (25 : ℚ) / 2 := by
  have h := progress_sample_spec 1 ("progress: 12.5 (500/4000)".toList) 500 4000
    (by rfl) (by decide)
  refine ⟨h.1, h.2.1, h.2.2.1, ?_⟩
  rw [h.2.2.2.1]
  norm_num

/-! ## Claim C4 -/

/-- C4: in the progress-sample computation, zero (or clock-skewed
negative) elapsed time gives speed zero, and zero speed gives remaining
time zero, so the guarded divisions never divide by zero. -/
theorem speed_remaining_zero_guard (d t : Nat) (e : ℚ) :
    (e = 0 → speedOf d e = 0)
    ∧ (speedOf d e = 0 → (mkSample d t e).remaining = 0)
    ∧ (e = 0 → (mkSample d t e).remaining = 0) := by
  have h1 : e = 0 → speedOf d e = 0 := by
    intro h
    simp [speedOf, h]
  have h2 : speedOf d e = 0 → (mkSample d t e).remaining = 0 := by
    intro h
    show remainingOf t d (speedOf d e) = 0
    rw [h]
    simp [remainingOf]
  exact ⟨h1, h2, fun h => h2 (h1 h)⟩

/-- C4 witness: the guards at `downloaded = 3`, `total = 7`,
`elapsed = 0`. -/
theorem speed_remaining_zero_guard_witness :
    speedOf 3 0 = 0 ∧ (mkSample 3 7 0).remaining = 0 :=
  ⟨(speed_remaining_zero_guard 3 7 0).1 rfl, (speed_remaining_zero_guard 3 7 0).2.2 rfl⟩

/-! ## Claim C5 -/

/-- C5: credential validation returns `false` whenever the captured
error stream contains the literal substring `FAILED`, `true` otherwise
when no exception occurs, and `false` on any exception (timeout
included), with no distinction between the failure causes. -/
theorem validate_credentials_spec
    (runner : List (List Char) → SubprocResult) (exe u pw out err m : List Char) :
    (runner (validateCmd exe u pw) = SubprocResult.ok out err →
      (∃ l r, err = l ++ "FAILED".toList ++ r) →
      validate_credentials runner exe u pw = false)
    ∧ (runner (validateCmd exe u pw) = SubprocResult.ok out err →
      (¬ ∃ l r, err = l ++ "FAILED".toList ++ r) →
      validate_credentials runner exe u pw = true)
    ∧ (runner (validateCmd exe u pw) = SubprocResult.exc m →
      validate_credentials runner exe u pw = false) := by
  refine ⟨?_, ?_, ?_⟩
  · intro hr hex
    unfold validate_credentials
    rw [hr]
    have hc : containsSub ("FAILED".toList) err = true :=
      (containsSub_iff_ex ("FAILED".toList) err).mpr hex
    show (if containsSub ("FAILED".toList) err = true then false else true) = false
    rw [hc]
    rfl
  · intro hr hex
    unfold validate_credentials
    rw [hr]
    have hc : containsSub ("FAILED".toList) err = false := by
      rcases hb : containsSub ("FAILED".toList) err with _ | _
      · rfl
      · exact absurd ((containsSub_iff_ex ("FAILED".toList) err).mp hb) hex
    show (if containsSub ("FAILED".toList) err = true then false else true) = true
    rw [hc]
    rfl
  · intro hr
    unfold validate_credentials
    rw [hr]

/-- C5 witness: a run whose error stream is exactly `FAILED` is
rejected, and a timed-out run is rejected. -/
theorem validate_credentials_spec_witness :
    validate_credentials (fun _ => SubprocResult.ok [] ("FAILED".toList)) [] [] [] = false
    ∧ validate_credentials (fun _ => SubprocResult.exc ("timeout".toList)) [] [] [] = false :=
  ⟨(validate_credentials_spec (fun _ => SubprocResult.ok [] ("FAILED".toList))
      [] [] [] [] ("FAILED".toList) []).1 rfl ⟨[], [], by simp⟩,
   (validate_credentials_spec (fun _ => SubprocResult.exc ("timeout".toList))
      [] [] [] [] [] ("timeout".toList)).2.2 rfl⟩

/-! ## Claim C6 -/

/-- C6: with anonymous login disabled and an empty username or password,
the download handler raises a user-visible error and neither runs
credential validation nor starts the worker thread. -/
theorem handle_download_missing_creds
    (username password game_input : List Char) (credOk : Bool)
    (h : username = [] ∨ password = []) :
    HAction.validateCreds ∉ handle_download_trace username password false game_input credOk
    ∧ HAction.startWorker ∉ handle_download_trace username password false game_input credOk
    ∧ ∃ m, HAction.raiseError m
        ∈ handle_download_trace username password false game_input credOk := by
  have hcond : (username.isEmpty || password.isEmpty) = true := by
    rcases h with h | h <;> simp [h]
  cases hx : extract_game_id game_input with
  | error e =>
    refine ⟨?_, ?_, ⟨e, ?_⟩⟩ <;> simp [handle_download_trace, hx]
  | ok g =>
    refine ⟨?_, ?_,
      ⟨"Username and password required when not using anonymous login".toList, ?_⟩⟩ <;>
      simp [handle_download_trace, hx, hcond]

/-- C6 witness: empty username, non-anonymous, valid game input. -/
theorem handle_download_missing_creds_witness :
    HAction.startWorker ∉ handle_download_trace [] ("pw".toList) false ("570".toList) true
    ∧ HAction.validateCreds
        ∉ handle_download_trace [] ("pw".toList) false ("570".toList) true :=
  ⟨(handle_download_missing_creds [] ("pw".toList) ("570".toList) true (Or.inl rfl)).2.1,
   (handle_download_missing_creds [] ("pw".toList) ("570".toList) true (Or.inl rfl)).1⟩

/-! ## Claim C7 -/

/-- C7: the single-file route serves the joined path exactly when it
exists and is a regular file, answering `File not found` otherwise; the
listing route answers `Directory not found` for a missing per-game
directory and an empty `<ul>` page for an existing empty one. -/
theorem file_routes_spec (fs : FS) (cwd game_id file_path : List Char) :
    (fs.pathOnDisk (pjoinList [cwd, "downloads".toList, game_id, file_path]) = true →
      fs.isFile (pjoinList [cwd, "downloads".toList, game_id, file_path]) = true →
      serve_file fs cwd game_id file_path
        = HttpResp.fileResp (pjoinList [cwd, "downloads".toList, game_id, file_path]))
    ∧ ((fs.pathOnDisk (pjoinList [cwd, "downloads".toList, game_id, file_path]) = false
        ∨ fs.isFile (pjoinList [cwd, "downloads".toList, game_id, file_path]) = false) →
      serve_file fs cwd game_id file_path = HttpResp.jsonErr ("File not found".toList))
    ∧ (fs.pathOnDisk (pjoinList [cwd, "downloads".toList, game_id]) = false →
      list_files fs cwd game_id = HttpResp.htmlResp ("Directory not found".toList))
    ∧ (fs.pathOnDisk (pjoinList [cwd, "downloads".toList, game_id]) = true →
      fs.walk (pjoinList [cwd, "downloads".toList, game_id])
        = [(pjoinList [cwd, "downloads".toList, game_id], [], [])] →
      list_files fs cwd game_id = HttpResp.htmlResp (listingHeader ++ listingFooter)) := by
  refine ⟨?_, ?_, ?_, ?_⟩
  · intro hex hf
    unfold serve_file
    rw [hex, hf]
    rfl
  · intro h
    unfold serve_file
    rcases h with h | h
    · rw [h]
      rfl
    · rw [h]
      simp
  · intro h
    unfold list_files
    rw [h]
    rfl
  · intro hex hwalk
    unfold list_files
    rw [hex]
    simp only [Bool.not_true, Bool.false_eq_true, if_false]
    unfold walkFiles
    rw [hwalk]
    simp

/-- C7 witness: an all-empty filesystem oracle. -/
theorem file_routes_spec_witness :
    serve_file ⟨fun _ => false, fun _ => false, fun _ => []⟩ [] [] []
      = HttpResp.jsonErr ("File not found".toList)
    ∧ list_files ⟨fun _ => false, fun _ => false, fun _ => []⟩ [] []
      = HttpResp.htmlResp ("Directory not found".toList) :=
  ⟨(file_routes_spec ⟨fun _ => false, fun _ => false, fun _ => []⟩ [] [] []).2.1
      (Or.inl rfl),
   (file_routes_spec ⟨fun _ => false, fun _ => false, fun _ => []⟩ [] [] []).2.2.1 rfl⟩

/-! ## Claim C8 -/

/-- C8: the single-file route applies no path-traversal check: for every
`game_id` and `file_path` — including `file_path` values with `..`
segments, which `os.path.join` keeps verbatim — the route returns the
file whenever the joined path exists and is a regular file. -/
theorem serve_file_no_traversal_check (fs : FS) (cwd game_id file_path : List Char)
    (hex : fs.pathOnDisk (pjoinList [cwd, "downloads".toList, game_id, file_path]) = true)
    (hf : fs.isFile (pjoinList [cwd, "downloads".toList, game_id, file_path]) = true) :
    serve_file fs cwd game_id file_path
      = HttpResp.fileResp (pjoinList [cwd, "downloads".toList, game_id, file_path])
    ∧ pjoinList [("/srv".toList), "downloads".toList, ("570".toList),
        ("../../etc/passwd".toList)]
      = "/srv/downloads/570/../../etc/passwd".toList := by
  constructor
  · unfold serve_file
    rw [hex, hf]
    rfl
  · rfl

/-- C8 witness: a traversal path `../../etc/passwd` is served whenever
the host filesystem resolves it to an existing regular file. -/
theorem serve_file_no_traversal_check_witness :
    serve_file ⟨fun _ => true, fun _ => true, fun _ => []⟩ ("/srv".toList) ("570".toList)
        ("../../etc/passwd".toList)
      = HttpResp.fileResp ("/srv/downloads/570/../../etc/passwd".toList) :=
  (serve_file_no_traversal_check ⟨fun _ => true, fun _ => true, fun _ => []⟩
    ("/srv".toList) ("570".toList) ("../../etc/passwd".toList) rfl rfl).1

/-! ## Claim C9 -/

/-- C9: a matching progress line with total 0 makes the percentage
division raise `ZeroDivisionError` after the raw line is forwarded; the
catch-all converts it into the terminal `error: division by zero`
signal, ending the run with no sample emitted and any later lines
unread. -/
theorem progress_zero_total_error (elapsed : ℚ) (l : List Char) (d : Nat)
    (hp : parseProgress l = some (d, 0)) :
    lineStep ⟨elapsed, l⟩ = ([Msg.line l], some ("division by zero".toList))
    ∧ ∀ (rest : List TimedLine) (ec : Int) (exe cwd gid u pw : List Char) (anon : Bool),
        download_worker none (fun _ => ⟨⟨elapsed, l⟩ :: rest, ec⟩) exe cwd gid u pw anon
          = [Msg.line l, Msg.error ("division by zero".toList)] := by
  have hc := parseProgress_contains l (d, 0) hp
  have h1 : lineStep ⟨elapsed, l⟩ = ([Msg.line l], some ("division by zero".toList)) := by
    unfold lineStep
    rw [show (⟨elapsed, l⟩ : TimedLine).text = l from rfl, hc, hp]
    simp
  refine ⟨h1, ?_⟩
  intro rest ec exe cwd gid u pw anon
  have h2 : runLines (⟨elapsed, l⟩ :: rest)
      = ([Msg.line l], some ("division by zero".toList)) := by
    unfold runLines
    rw [h1]
  simp only [download_worker]
  rw [h2]
  rfl

/-- C9 witness: the run reading `progress: 0.0 (0/0)` and a further line
ends with `error: division by zero` and never reads the second line. -/
theorem progress_zero_total_error_witness :
    download_worker none
        (fun _ => ⟨[⟨1, "progress: 0.0 (0/0)".toList⟩, ⟨2, "later".toList⟩], 0⟩)
        [] [] ("570".toList) [] [] true
      = [Msg.line ("progress: 0.0 (0/0)".toList),
         Msg.error ("division by zero".toList)] :=
  (progress_zero_total_error 1 ("progress: 0.0 (0/0)".toList) 0 (by rfl)).2
    [⟨2, "later".toList⟩] 0 [] [] ("570".toList) [] [] true

/-! ## Claim C10 -/

/-- C10: with the anonymous flag set, the handler never checks or
validates credentials and its action trace is independent of both the
credential inputs and the validation oracle; the worker builds the same
command line (using `+login anonymous`) for any credentials, and the
message sequence put on the queue is identical. -/
theorem anonymous_noninterference (pre : Option (List Char))
    (proc : List (List Char) → ProcBehavior)
    (exe cwd game_id u1 p1 u2 p2 game_input : List Char) (c1 c2 : Bool) :
    handle_download_trace u1 p1 true game_input c1
      = handle_download_trace u2 p2 true game_input c2
    ∧ HAction.validateCreds ∉ handle_download_trace u1 p1 true game_input c1
    ∧ workerCmd exe cwd game_id u1 p1 true = workerCmd exe cwd game_id u2 p2 true
    ∧ workerCmd exe cwd game_id u1 p1 true
      = [exe, "+login".toList, "anonymous".toList, "+force_install_dir".toList,
         downloadDir cwd game_id, "+app_update".toList, game_id, "validate".toList,
         "+quit".toList]
    ∧ download_worker pre proc exe cwd game_id u1 p1 true
      = download_worker pre proc exe cwd game_id u2 p2 true := by
  have htrace : ∀ (u pw : List Char) (c : Bool),
      handle_download_trace u pw true game_input c
        = (match extract_game_id game_input with
           | Except.error e => [HAction.raiseError e]
           | Except.ok _ => [HAction.startWorker]) := by
    intro u pw c
    unfold handle_download_trace
    cases extract_game_id game_input <;> simp
  refine ⟨?_, ?_, rfl, rfl, rfl⟩
  · rw [htrace u1 p1 c1, htrace u2 p2 c2]
  · rw [htrace u1 p1 c1]
    cases extract_game_id game_input <;> simp

/-- C10 witness: two different credential pairs, anonymous mode, same
trace and same worker messages. -/
theorem anonymous_noninterference_witness :
    handle_download_trace ("alice".toList) ("x".toList) true ("570".toList) true
      = handle_download_trace ("bob".toList) ("y".toList) true ("570".toList) false
    ∧ download_worker none (fun _ => ⟨[⟨1, "hello".toList⟩], 0⟩)
        [] [] ("570".toList) ("alice".toList) ("x".toList) true
      = download_worker none (fun _ => ⟨[⟨1, "hello".toList⟩], 0⟩)
        [] [] ("570".toList) ("bob".toList) ("y".toList) true :=
  ⟨(anonymous_noninterference none (fun _ => ⟨[⟨1, "hello".toList⟩], 0⟩) [] []
      ("570".toList) ("alice".toList) ("x".toList) ("bob".toList) ("y".toList)
      ("570".toList) true false).1,
   (anonymous_noninterference none (fun _ => ⟨[⟨1, "hello".toList⟩], 0⟩) [] []
      ("570".toList) ("alice".toList) ("x".toList) ("bob".toList) ("y".toList)
      ("570".toList) true false).2.2.2.2⟩
